import Mathlib

/-!
Verification development for the legal-research document acquisition engine
(`src/services/legislationAPI.ts` and `src/components/DocumentViewer.tsx`).

JavaScript string primitives (`String.prototype.replace` with a string
pattern, `replace` with a global regex, `includes`, `startsWith`,
`toLowerCase`, `trim`) are modelled over `List Char`, faithful to their
left-to-right scanning semantics: a string-pattern `replace` rewrites only
the first occurrence, and a global regex `replace` resumes scanning after
the end of each match (it never revisits replaced text).  Browser DOM
primitives (DOMParser, querySelector, XMLSerializer, fetch) are external
capabilities, modelled as explicit environment records whose fields
correspond one-to-one to the query results the source code reads.
-/

/-- JS truthiness of an optional string value: `null`/`undefined` and the
empty string are falsy; a truthy value is returned unchanged. -/
def truthyStr : Option String → Option String
  | some s => if s = "" then none else some s
  | none => none

/-- JS truthiness of an optional numeric value: `undefined` and `0` are
falsy. -/
def truthyInt : Option Int → Option Int
  | some n => if n = 0 then none else some n
  | none => none

/-- JS `String.prototype.includes` over `List Char`: some (possibly empty)
occurrence of the pattern starts at some position of the scanned list. -/
def containsL (pat : List Char) : List Char → Bool
  | [] => pat.isPrefixOf []
  | c :: rest => pat.isPrefixOf (c :: rest) || containsL pat rest

/-- JS `s.includes(pat)` on strings. -/
def jsIncludes (s pat : String) : Bool := containsL pat.data s.data

/-- JS `s.startsWith(pat)` on strings. -/
def jsStartsWith (s pat : String) : Bool := pat.data.isPrefixOf s.data

/-- JS `String.prototype.replace` with a plain string pattern: rewrite only
the first occurrence (an empty pattern matches at position 0). -/
def replaceFirstL (pat rep : List Char) : List Char → List Char
  | [] => if pat.isEmpty then rep else []
  | c :: rest =>
    if pat.isPrefixOf (c :: rest) then rep ++ (c :: rest).drop pat.length
    else c :: replaceFirstL pat rep rest

/-- String version of `replaceFirstL`. -/
def replaceFirstS (pat rep s : String) : String := ⟨replaceFirstL pat.data rep.data s.data⟩

/-- Fuelled scanner for a global string-literal regex replace with empty
replacement (JS `replace(/pat/g, '')`): matches are removed left to right
and scanning resumes after the end of each match.  The fuel is an upper
bound on the scanned length; callers pass the input length. -/
def removeAllGo (pat : List Char) : Nat → List Char → List Char
  | _, [] => []
  | 0, s => s
  | fuel + 1, c :: rest =>
    if pat.isPrefixOf (c :: rest) && !pat.isEmpty then
      removeAllGo pat fuel ((c :: rest).drop pat.length)
    else c :: removeAllGo pat fuel rest

/-- Global removal of every (left-to-right, non-revisited) occurrence. -/
def removeAllL (pat : List Char) (s : List Char) : List Char := removeAllGo pat s.length s

/-- Matcher for the date-segment regex `\/\d{4}-\d{2}-\d{2}` anchored at the
start of the input: on success returns the remainder after the 11 matched
characters. -/
def matchDate : List Char → Option (List Char)
  | '/' :: a :: b :: c :: d :: '-' :: e :: f :: '-' :: g :: h :: rest =>
    if a.isDigit && b.isDigit && c.isDigit && d.isDigit &&
       e.isDigit && f.isDigit && g.isDigit && h.isDigit then some rest else none
  | _ => none

/-- Fuelled scanner for `replace(/\/\d{4}-\d{2}-\d{2}/g, '')`. -/
def removeDatesGo : Nat → List Char → List Char
  | _, [] => []
  | 0, s => s
  | fuel + 1, c :: rest =>
    match matchDate (c :: rest) with
    | some r => removeDatesGo fuel r
    | none => c :: removeDatesGo fuel rest

/-- Global removal of every date path segment. -/
def removeDatesL (s : List Char) : List Char := removeDatesGo s.length s

/-- After `[F` and one digit of an editorial footnote marker: consume further
digits and require a closing `]`; returns the remainder. -/
def matchFTail : List Char → Option (List Char)
  | ']' :: rest => some rest
  | c :: rest => if c.isDigit then matchFTail rest else none
  | [] => none

/-- Matcher for the footnote-marker regex `\[F\d+\]` anchored at the start of
the input. -/
def matchF : List Char → Option (List Char)
  | '[' :: 'F' :: c :: rest => if c.isDigit then matchFTail rest else none
  | _ => none

/-- Fuelled scanner for `replace(/\[F\d+\]/g, '')`. -/
def stripFGo : Nat → List Char → List Char
  | _, [] => []
  | 0, s => s
  | fuel + 1, c :: rest =>
    match matchF (c :: rest) with
    | some r => stripFGo fuel r
    | none => c :: stripFGo fuel rest

/-- Removal of every `[F12]`-style editorial footnote marker from a string. -/
def stripFMarkers (s : String) : String := ⟨stripFGo s.data.length s.data⟩

/-- Leading-whitespace removal used by the JS `trim` model. -/
def dropWhileWS : List Char → List Char
  | [] => []
  | c :: rest => if c.isWhitespace then dropWhileWS rest else c :: rest

/-- JS `String.prototype.trim`: strip whitespace from both ends. -/
def jsTrim (s : String) : String :=
  ⟨(dropWhileWS (dropWhileWS s.data).reverse).reverse⟩

/-- JS `String.prototype.toLowerCase` (character-wise lowering). -/
def jsToLower (s : String) : String := ⟨s.data.map Char.toLower⟩

/-- Scan-safety condition: no occurrence of `pat` starts strictly inside
`base` when `tail` is appended behind it. -/
def noHitBefore (pat tail : List Char) : List Char → Bool
  | [] => true
  | c :: rest => !(pat.isPrefixOf ((c :: rest) ++ tail)) && noHitBefore pat tail rest

/-- Scan-safety condition for the date scanner: no date segment matches
strictly inside `base` when `tail` is appended behind it. -/
def dateSafeBefore (tail : List Char) : List Char → Bool
  | [] => true
  | c :: rest => (matchDate ((c :: rest) ++ tail)).isNone && dateSafeBefore tail rest

/-- Date-freedom of a whole list: no date segment matches at any position. -/
def dateFreeL : List Char → Bool
  | [] => true
  | c :: rest => (matchDate (c :: rest)).isNone && dateFreeL rest

/-- URL free of every pattern the `getDocument` cleaning step strips. -/
def patFreeL (s : List Char) : Bool :=
  !containsL "/contents".data s && !containsL "/data.htm".data s &&
  !containsL "/data.html".data s && dateFreeL s && !containsL "/enacted".data s

/-- Scan-safety bundle for a base URL to which a strippable suffix is
appended: the base itself is free of every strippable pattern, no
occurrence of `/contents` or `/enacted` starts inside it when that same
suffix follows it, and appending `/enacted` creates no occurrence of the
other patterns. -/
def cleanUrlSafeBase (base : List Char) : Bool :=
  noHitBefore "/contents".data "/contents".data base &&
  noHitBefore "/enacted".data "/enacted".data base &&
  patFreeL base &&
  !containsL "/contents".data (base ++ "/enacted".data) &&
  !containsL "/data.htm".data (base ++ "/enacted".data) &&
  !containsL "/data.html".data (base ++ "/enacted".data) &&
  dateFreeL (base ++ "/enacted".data)

namespace legislationAPI

def LEGISLATION_BASE : String := "https://www.legislation.gov.uk"

def USE_PROXY : Bool := true

/-- SearchResult record produced by the feed normalizer (`src/types`). -/
structure SearchResult where
  title : String
  url : String
  snippet : String
  source : String
deriving DecidableEq

/-- One `<entry>` of the Atom search feed, as read through the DOM in
`parseAtomFeed`: each field is the result of the corresponding
`querySelector`/`getAttribute` lookup (`none` models a missing element or
attribute; the `trim` calls of the source are applied by the consumer). -/
structure AtomEntry where
  titleText : Option String
  linkHref : Option String
  summaryText : Option String
  updatedText : Option String

/-- Processing of a single feed entry, from the body of the `forEach` in
`parseAtomFeed` (`legislationAPI.ts` lines 76-107): an entry is emitted only
when both the trimmed title and the link are truthy; an `http://` link is
upgraded, a relative link is resolved against the base origin, and the first
`/contents` substring is removed. -/
def processEntry (e : AtomEntry) : Option SearchResult :=
  let title := (e.titleText.map jsTrim).getD ""
  let url0 := e.linkHref.getD ""
  let snippet := (e.summaryText.map jsTrim).getD ""
  let updated := (e.updatedText.map jsTrim).getD ""
  if title != "" && url0 != "" then
    let url1 := if jsStartsWith url0 "http://" then replaceFirstS "http://" "https://" url0 else url0
    let url2 := if !jsStartsWith url1 "http" then LEGISLATION_BASE ++ url1 else url1
    let url3 := replaceFirstS "/contents" "" url2
    some { title := title, url := url3,
           snippet := if snippet != "" then snippet else "Last updated: " ++ updated,
           source := "legislation" }
  else none

/-- Feed normalizer `legislationAPI.parseAtomFeed`, over the entry list the
DOM query `querySelectorAll('entry')` yields. -/
def parseAtomFeed (entries : List AtomEntry) : List SearchResult :=
  entries.filterMap processEntry

/-- Built-in mock results of `legislationAPI.getMockResults`. -/
def mockResults : List SearchResult :=
  [ { title := "Companies Act 2006",
      url := LEGISLATION_BASE ++ "/ukpga/2006/46",
      snippet := "An Act to reform company law and restate the greater part of the enactments relating to companies...",
      source := "legislation" },
    { title := "Employment Rights Act 1996",
      url := LEGISLATION_BASE ++ "/ukpga/1996/18",
      snippet := "An Act to consolidate enactments relating to employment rights...",
      source := "legislation" },
    { title := "Data Protection Act 2018",
      url := LEGISLATION_BASE ++ "/ukpga/2018/12",
      snippet := "An Act to make provision for the regulation of the processing of information relating to individuals...",
      source := "legislation" },
    { title := "Consumer Rights Act 2015",
      url := LEGISLATION_BASE ++ "/ukpga/2015/15",
      snippet := "An Act to amend the law relating to the rights of consumers...",
      source := "legislation" },
    { title := "Equality Act 2010",
      url := LEGISLATION_BASE ++ "/ukpga/2010/15",
      snippet := "An Act to make provision to require Ministers of the Crown and others...",
      source := "legislation" } ]

/-- `legislationAPI.getMockResults`: the built-in list filtered by
case-insensitive title containment (`!query ||
result.title.toLowerCase().includes(query.toLowerCase())`). -/
def getMockResults (query : String) : List SearchResult :=
  mockResults.filter fun r => (query == "") || jsIncludes (jsToLower r.title) (jsToLower query)

/-- Outcome of one awaited proxy fetch, together with reading its text: the
promise either rejects with an error message or resolves with an HTTP
success flag (`response.ok`) and a body. -/
inductive FetchOutcome where
  | thrown (msg : String)
  | resp (ok : Bool) (body : String)
deriving DecidableEq

/-- External capabilities used by `legislationAPI.search`: the proxy fetch,
the feed parse (DOMParser plus `querySelectorAll('entry')`), and the two
browser URL encoders. -/
structure SearchEnv where
  fetch : String → FetchOutcome
  parseEntries : String → List AtomEntry
  encodeURIComponent : String → String
  paramsToString : List (String × String) → String

/-- Query-parameter list built by `legislationAPI.search` (lines 40-48):
each parameter is appended only when truthy. -/
def searchQueryParams (p : List (String × Option String)) : List (String × String) :=
  p.foldr (fun q acc => match truthyStr q.2 with
    | some v => (q.1, v) :: acc
    | none => acc) []

/-- Search parameters of `legislationAPI.search` (numbers rendered with
`toString` when appended). -/
structure LegislationSearchParams where
  title : Option String
  type : Option String
  year : Option Int
  number : Option Int
  startYear : Option Int
  endYear : Option Int
  resultsCount : Option Int

/-- Parameter pairs in the order the source appends them; a numeric field is
truthy only when present and nonzero. -/
def paramsPairs (p : LegislationSearchParams) : List (String × Option String) :=
  [("title", p.title), ("type", p.type),
   ("year", (truthyInt p.year).map toString),
   ("number", (truthyInt p.number).map toString),
   ("start-year", (truthyInt p.startYear).map toString),
   ("end-year", (truthyInt p.endYear).map toString),
   ("results-count", (truthyInt p.resultsCount).map toString)]

/-- The proxy URL `search` fetches (line 50-51 of the source). -/
def searchProxyUrl (env : SearchEnv) (p : LegislationSearchParams) : String :=
  "/api/legislation?url=" ++
    env.encodeURIComponent
      (LEGISLATION_BASE ++ "/all/data.feed?" ++ env.paramsToString (searchQueryParams (paramsPairs p)))

/-- `legislationAPI.search`: fetch the feed through the proxy; on a
non-success status or any exception fall back to the mock results filtered
by the query title; otherwise parse the Atom feed. -/
def search (env : SearchEnv) (p : LegislationSearchParams) : List SearchResult :=
  if USE_PROXY = false then getMockResults (p.title.getD "") else
  match env.fetch (searchProxyUrl env p) with
  | .thrown _ => getMockResults (p.title.getD "")
  | .resp ok xml =>
    if ok then parseAtomFeed (env.parseEntries xml)
    else getMockResults (p.title.getD "")

/-- Element found by a content selector in `getDocument`: `textContent` is
the text used by the length gate at line 187, and `cleanedInnerHtml` is the
element's `innerHTML` after the unwanted-element removal of lines 200-207
(a DOM mutation whose selector list is `unwantedSelectors`). -/
structure ContentEl where
  textContent : String
  cleanedInnerHtml : String

/-- A parsed HTML page, as read by `getDocument`: the two version-UI
selector probes, the body text, and the content-selector lookup. -/
structure Page where
  hasLegVersions : Bool
  hasVersionClass : Bool
  bodyText : String
  select : String → Option ContentEl

/-- External capabilities used by `getDocument`: `fetch u` models
`fetch('/api/legislation?url=' + encodeURIComponent(u))` followed by reading
the text (the proxy wrapper is an injective URL transformation applied to
every candidate alike), and `parse` models
`new DOMParser().parseFromString(html, 'text/html')`. -/
structure DocEnv where
  fetch : String → FetchOutcome
  parse : String → Page

/-- Content selectors tried in order by `getDocument` (lines 175-181). -/
def contentSelectors : List String :=
  ["#viewLegContents", "#content", ".LegContent", "article", "main"]

/-- Selector list of the unwanted-element removal (lines 200-204). -/
def unwantedSelectors : String :=
  "script, style, nav, header, footer, .navigation, .breadcrumb, " ++
  ".toolTip, .LegNavigation, .printOptions, .moreResources, " ++
  ".accessKey, #layout1, .LegNav, .LegBreadcrumb, .LegVersions"

/-- Selector loop of `getDocument` (lines 183-192): the first selector whose
element exists, has truthy text, and has text longer than 1000 characters
wins; a failing selector falls through to the next one. -/
def findContent (doc : Page) : List String → Option ContentEl
  | [] => none
  | sel :: rest =>
    match doc.select sel with
    | some el =>
      if el.textContent != "" && decide (el.textContent.length > 1000) then some el
      else findContent doc rest
    | none => findContent doc rest

/-- Per-candidate payload processing of `getDocument` (lines 152-218, after
a successful fetch): reject a version-selection interstitial (either
version-UI selector present, or all three marker phrases present in the body
text with the raw payload under 30000 characters); otherwise find content by
selector, and accept it only when the cleaned markup is longer than 1000
characters and free of the skip-link marker. -/
def processPayload (env : DocEnv) (html : String) : Option String :=
  let doc := env.parse html
  let bodyText := doc.bodyText
  let hasVersionUI :=
    doc.hasLegVersions || doc.hasVersionClass ||
      (jsIncludes bodyText "Latest available" && jsIncludes bodyText "Point in Time" &&
        jsIncludes bodyText "Original" && decide (html.length < 30000))
  if hasVersionUI then none
  else
    match findContent doc contentSelectors with
    | none => none
    | some content =>
      let finalHtml := content.cleanedInnerHtml
      if decide (finalHtml.length > 1000) && !jsIncludes finalHtml "Skip to main content" then
        some finalHtml
      else none

/-- Outcome of the strategy loop of `getDocument`. -/
inductive LoopResult where
  | success (content : String)
  | exhausted
  | thrown (msg : String)
deriving DecidableEq

/-- Bool test for a non-accepting loop outcome. -/
def LoopResult.notSuccess : LoopResult → Bool
  | .success _ => false
  | _ => true

/-- Sequential candidate loop of `getDocument` (lines 139-219): candidates
are fetched strictly in order; a failed fetch, an interstitial, or rejected
content falls through to the next candidate; the first accepted payload
stops the loop; a transport exception aborts it.  The second component
records the fetched candidate URLs in order. -/
def runStrategies (env : DocEnv) : List String → LoopResult × List String
  | [] => (.exhausted, [])
  | u :: rest =>
    match env.fetch u with
    | .thrown m => (.thrown m, [u])
    | .resp ok body =>
      if ok then
        match processPayload env body with
        | some c => (.success c, [u])
        | none =>
          let r := runStrategies env rest
          (r.1, u :: r.2)
      else
        let r := runStrategies env rest
        (r.1, u :: r.2)

/-- URL cleaning step of `getDocument` (lines 120-128): drop the first
`/contents`, `/data.htm` and `/data.html` occurrence, then every
`/YYYY-MM-DD` date segment, then every `/enacted` segment. -/
def cleanUrlL (s : List Char) : List Char :=
  removeAllL "/enacted".data
    (removeDatesL
      (replaceFirstL "/data.html".data []
        (replaceFirstL "/data.htm".data []
          (replaceFirstL "/contents".data [] s))))

/-- String version of the URL cleaning step. -/
def cleanUrl (s : String) : String := ⟨cleanUrlL s.data⟩

/-- Candidate list of `getDocument` (lines 133-137): base URL, then the
enacted version, then the contents page. -/
def strategies (baseUrl : String) : List String :=
  [baseUrl, baseUrl ++ "/enacted", baseUrl ++ "/contents"]

/-- Failure markup returned when all strategies are exhausted (lines
223-238); it embeds the original URL once and the cleaned base URL twice. -/
def exhaustedMessage (url baseUrl : String) : String :=
  "\n        <div style=\"padding: 30px; background: #fff3cd; border: 3px solid #ffc107; border-radius: 10px; margin: 20px;\">\n          <h2 style=\"color: #856404; margin-top: 0;\">⚠️ Unable to Load Document</h2>\n          <p style=\"color: #856404; font-size: 16px;\">All loading strategies failed to retrieve the document content.</p>\n          <p style=\"color: #856404;\"><strong>Original URL:</strong> <code>" ++
  url ++
  "</code></p>\n          <p style=\"color: #856404;\"><strong>Base URL:</strong> <code>" ++
  baseUrl ++
  "</code></p>\n          <p style=\"margin: 20px 0;\">\n            <a href=\"" ++
  baseUrl ++
  "\" target=\"_blank\" style=\"display: inline-block; padding: 12px 24px; background: #007bff; color: white; text-decoration: none; border-radius: 5px; font-weight: bold;\">\n              Open on legislation.gov.uk →\n            </a>\n          </p>\n          <p style=\"font-size: 14px; color: #666;\">\n            This legislation may require manual version selection or have restricted access.\n          </p>\n        </div>\n      "

/-- Failure markup returned from the catch block (lines 242-252); it embeds
the error message and the original URL. -/
def errorMessage (url msg : String) : String :=
  "\n        <div style=\"padding: 30px; background: #f8d7da; border: 3px solid #dc3545; border-radius: 10px; margin: 20px;\">\n          <h2 style=\"color: #721c24; margin-top: 0;\">❌ Error Loading Document</h2>\n          <p style=\"color: #721c24; font-size: 16px;\">Error: " ++
  msg ++
  "</p>\n          <p style=\"margin: 20px 0;\">\n            <a href=\"" ++
  url ++
  "\" target=\"_blank\" style=\"display: inline-block; padding: 12px 24px; background: #007bff; color: white; text-decoration: none; border-radius: 5px; font-weight: bold;\">\n              Open on legislation.gov.uk →\n            </a>\n          </p>\n        </div>\n      "

/-- Content Retriever `legislationAPI.getDocument`: clean the incoming URL,
try the three candidates in order, and on a non-accepting outcome return the
corresponding failure markup (the catch branch absorbs every transport
exception). -/
def getDocument (env : DocEnv) (url : String) : String :=
  if USE_PROXY = false then "<p>Mock document content. Enable USE_PROXY to fetch real data.</p>" else
  let baseUrl := cleanUrl url
  match (runStrategies env (strategies baseUrl)).1 with
  | .success c => c
  | .exhausted => exhaustedMessage url baseUrl
  | .thrown m => errorMessage url m

end legislationAPI

namespace DocumentViewer

/-- Presentation record returned by the status classifier (`icon` holds the
name of the icon component). -/
structure StatusInfo where
  label : String
  color : String
  icon : String
  tooltip : String
deriving DecidableEq

/-- Outline metadata block, as probed by `extractStatusFromMetadata`:
`enactment` is the text content of the first `EnactmentDate, Made` element
when one exists, and the two flags record whether `Modified` and
`UnappliedEffects Effect` match anything. -/
structure Metadata where
  enactment : Option String
  hasModified : Bool
  hasUnappliedEffect : Bool

/-- Status Classifier `extractStatusFromMetadata` (`DocumentViewer.tsx`
lines 268-312): a missing metadata block short-circuits to Unknown;
otherwise a URL containing `/enacted` (lower-cased, optional-chained on the
document) wins, then unapplied effects, then a modification timestamp, then
the latest-available default. -/
def extractStatusFromMetadata (metadata : Option Metadata) (docUrl : Option String) : StatusInfo :=
  match metadata with
  | none =>
    { label := "Unknown", color := "bg-gray-200 text-gray-700", icon := "AlertCircle",
      tooltip := "Status information not available." }
  | some m =>
    let isEnacted := match docUrl with
      | some u => jsIncludes (jsToLower u) "/enacted"
      | none => false
    if isEnacted then
      { label := "As Enacted", color := "bg-status-green/20 text-status-green",
        icon := "CheckCircle",
        tooltip := "This is the original version as " ++
          (match m.enactment with
            | some t => "enacted on " ++ t
            | none => "initially made") ++ "." }
    else if m.hasUnappliedEffect then
      { label := "Revised (Changes Pending)", color := "bg-status-amber/20 text-status-amber",
        icon := "AlertTriangle",
        tooltip := "This version includes applied changes but has outstanding modifications not yet incorporated." }
    else if m.hasModified then
      { label := "Revised", color := "bg-status-blue/20 text-status-blue",
        icon := "CheckCircle",
        tooltip := "This is the revised version incorporating all known amendments." }
    else
      { label := "Latest Available", color := "bg-status-blue/20 text-status-blue",
        icon := "AlertCircle",
        tooltip := "This is the latest available version of this legislation." }

/-- Attribute and text data of one `ContentsItem` element as read via the
DOM (`none` models a missing attribute or child element). -/
structure ContentsItemData where
  contentRef : Option String
  documentURI : Option String
  status : Option String
  numberText : Option String
  titleText : Option String

/-- One `ContentsPart` or `ContentsSchedule` container: its own data plus
the list its child query `:scope > ContentsItem, :scope > ContentsPblock >
ContentsItem` yields, in document order. -/
structure ContentsGroupData where
  contentRef : Option String
  documentURI : Option String
  status : Option String
  numberText : Option String
  titleText : Option String
  items : List ContentsItemData

/-- Outline document as read by the three `parseTOCFromXML` queries:
`Contents > ContentsItem` (bare top-level items), `ContentsPart`, and
`ContentsSchedule`, each in document order. -/
structure OutlineDoc where
  bareItems : List ContentsItemData
  parts : List ContentsGroupData
  schedules : List ContentsGroupData

/-- Table-of-contents node (the `TOCItem` interface). -/
inductive TOCItem where
  | mk (id : String) (number : String) (title : String) (url : String)
      (status : Option String) (children : List TOCItem) (level : Nat)

def TOCItem.id : TOCItem → String
  | .mk i _ _ _ _ _ _ => i

def TOCItem.number : TOCItem → String
  | .mk _ n _ _ _ _ _ => n

def TOCItem.title : TOCItem → String
  | .mk _ _ t _ _ _ _ => t

def TOCItem.url : TOCItem → String
  | .mk _ _ _ u _ _ _ => u

def TOCItem.status : TOCItem → Option String
  | .mk _ _ _ _ s _ _ => s

def TOCItem.children : TOCItem → List TOCItem
  | .mk _ _ _ _ _ cs _ => cs

def TOCItem.level : TOCItem → Nat
  | .mk _ _ _ _ _ _ l => l

/-- JS `x || d` on an optional attribute value with a string default. -/
def jsOrStr (o : Option String) (d : String) : String := (truthyStr o).getD d

/-- Number/title cleaning of every TOC pass:
`textContent?.replace(/\[F\d+\]/g, '').trim() || ''`. -/
def cleanHeadingText (o : Option String) : String :=
  jsOrStr (o.map fun t => jsTrim (stripFMarkers t)) ""

/-- Top-level `ContentsItem` node (first pass of `parseTOCFromXML`,
lines 318-338). -/
def mkBareItem (index : Nat) (it : ContentsItemData) : TOCItem :=
  .mk (jsOrStr it.contentRef ("section-" ++ toString index))
    (cleanHeadingText it.numberText) (cleanHeadingText it.titleText)
    (jsOrStr it.documentURI "") (truthyStr it.status) [] 0

/-- Child item of a `ContentsPart` (second pass, lines 362-382). -/
def mkPartChild (index itemIndex : Nat) (it : ContentsItemData) : TOCItem :=
  .mk (jsOrStr it.contentRef ("item-" ++ toString index ++ "-" ++ toString itemIndex))
    (cleanHeadingText it.numberText) (cleanHeadingText it.titleText)
    (jsOrStr it.documentURI "") (truthyStr it.status) [] 1

/-- `ContentsPart` node with its children (second pass, lines 341-385). -/
def mkPartItem (index : Nat) (g : ContentsGroupData) : TOCItem :=
  .mk (jsOrStr g.contentRef ("part-" ++ toString index))
    (cleanHeadingText g.numberText) (cleanHeadingText g.titleText)
    (jsOrStr g.documentURI "") (truthyStr g.status)
    (g.items.mapIdx fun itemIndex it => mkPartChild index itemIndex it) 0

/-- Child item of a `ContentsSchedule` (third pass, lines 409-429). -/
def mkScheduleChild (index itemIndex : Nat) (it : ContentsItemData) : TOCItem :=
  .mk (jsOrStr it.contentRef ("item-schedule-" ++ toString index ++ "-" ++ toString itemIndex))
    (cleanHeadingText it.numberText) (cleanHeadingText it.titleText)
    (jsOrStr it.documentURI "") (truthyStr it.status) [] 1

/-- `ContentsSchedule` node with its children (third pass, lines 388-432). -/
def mkScheduleItem (index : Nat) (g : ContentsGroupData) : TOCItem :=
  .mk (jsOrStr g.contentRef ("schedule-" ++ toString index))
    (cleanHeadingText g.numberText) (cleanHeadingText g.titleText)
    (jsOrStr g.documentURI "") (truthyStr g.status)
    (g.items.mapIdx fun itemIndex it => mkScheduleChild index itemIndex it) 0

/-- TOC Builder `parseTOCFromXML` (lines 314-435): three independent passes
— bare top-level items, then Parts with their children, then Schedules with
their children — appended to one list in that order. -/
def parseTOCFromXML (doc : OutlineDoc) : List TOCItem :=
  (doc.bareItems.mapIdx fun index it => mkBareItem index it) ++
  (doc.parts.mapIdx fun index g => mkPartItem index g) ++
  (doc.schedules.mapIdx fun index g => mkScheduleItem index g)

mutual
/-- XML DOM element or text node of a provision fragment. -/
inductive XNode where
  | elem (tag : String) (attrs : List (String × String)) (children : XForest)
  | text (s : String)
/-- Sibling list of XML nodes. -/
inductive XForest where
  | nil
  | cons (hd : XNode) (tl : XForest)
end

def XForest.append : XForest → XForest → XForest
  | .nil, g => g
  | .cons n f, g => .cons n (XForest.append f g)

def XForest.ofList : List XNode → XForest
  | [] => .nil
  | n :: ns => .cons n (XForest.ofList ns)

/-- DOM `getAttribute` over an attribute list. -/
def getAttr (name : String) (attrs : List (String × String)) : Option String :=
  (attrs.find? fun a => a.1 == name).map fun a => a.2

mutual
/-- DOM `textContent` of a node. -/
def textContentN : XNode → String
  | .text s => s
  | .elem _ _ cs => textContentF cs
/-- DOM `textContent` of a sibling list. -/
def textContentF : XForest → String
  | .nil => ""
  | .cons n f => textContentN n ++ textContentF f
end

/-- One `Commentary` block of the fragment document: its `id` and `Type`
attributes and its text content. -/
structure Commentary where
  id : String
  type : Option String
  text : String

/-- Accordion title derived from the commentary type code (lines 536-541). -/
def commentaryTitle (type : Option String) : String :=
  if type == some "F" || type == some "M" then "Textual Amendment"
  else if type == some "I" || type == some "C" then "Commencement Information"
  else "Note"

/-- Click handler attached to the accordion button in the generated
markup. -/
def accordionOnclick : String :=
  "this.classList.toggle('active'); const content = this.nextElementSibling; content.style.display = content.style.display === 'none' ? 'block' : 'none';"

/-- Shared attribute list of the two inline SVG icons of the accordion. -/
def svgAttrs : List (String × String) :=
  [("width", "16"), ("height", "16"), ("viewBox", "0 0 24 24"), ("fill", "none"),
   ("stroke", "currentColor"), ("stroke-width", "2")]

/-- Accordion markup inserted after a provision (lines 545-564), as the
element tree the `innerHTML` parse of the template string produces
(inter-element whitespace text nodes omitted). -/
def accordionNode (title text : String) : XNode :=
  .elem "div" [("class", "amendment-accordion")] (XForest.ofList
    [ .elem "button" [("class", "accordion-button"), ("onclick", accordionOnclick)]
        (XForest.ofList
          [ .elem "span" [("style", "display: flex; align-items: center; gap: 8px;")]
              (XForest.ofList
                [ .elem "svg" svgAttrs (XForest.ofList
                    [ .elem "path" [("d", "M14 2H6a2 2 0 0 0-2 2v16a2 2 0 0 0 2 2h12a2 2 0 0 0 2-2V8z")] .nil,
                      .elem "polyline" [("points", "14 2 14 8 20 8")] .nil,
                      .elem "line" [("x1", "16"), ("y1", "13"), ("x2", "8"), ("y2", "13")] .nil,
                      .elem "line" [("x1", "16"), ("y1", "17"), ("x2", "8"), ("y2", "17")] .nil,
                      .elem "polyline" [("points", "10 9 9 9 8 9")] .nil ]),
                  .text title ]),
            .elem "svg" svgAttrs
              (XForest.ofList [ .elem "polyline" [("points", "9 18 15 12 9 6")] .nil ]) ]),
      .elem "div" [("class", "accordion-content"), ("style", "display: none;")]
        (XForest.ofList [ .text text ]) ])

/-- Tags matched by `ref.closest('P1, P2, P3, P4')`. -/
def isProvision (t : String) : Bool := t == "P1" || t == "P2" || t == "P3" || t == "P4"

mutual
/-- `Ref` attributes of the `CommentaryRef` elements whose closest provision
ancestor is the element owning this node: a document-order scan that stops
at nested provision elements (their references belong to them). -/
def topRefsN : XNode → List (Option String)
  | .text _ => []
  | .elem t a cs =>
    (if t == "CommentaryRef" then [getAttr "Ref" a] else []) ++
    (if isProvision t then [] else topRefsF cs)
/-- Document-order `Ref` scan of a sibling list. -/
def topRefsF : XForest → List (Option String)
  | .nil => []
  | .cons n f => topRefsN n ++ topRefsF f
end

/-- Accordion built for one commentary reference (lines 527-569): requires
a truthy `Ref` attribute and a matching `Commentary` block. -/
def mkAccordion (doc : List Commentary) (r : Option String) : Option XNode :=
  match truthyStr r with
  | none => none
  | some refId =>
    match doc.find? (fun c => c.id == refId) with
    | none => none
    | some c => some (accordionNode (commentaryTitle c.type) c.text)

mutual
/-- Commentary pass of `processProvisionXML` (lines 524-578) on one node:
transform the children of an element. -/
def commentaryPassN (doc : List Commentary) : XNode → XNode
  | .text s => .text s
  | .elem t a cs => .elem t a (commentaryPassF doc cs)
/-- Commentary pass on a sibling list: every `CommentaryRef` element is
removed with its subtree; after each provision element, the accordions of
the commentary references it owns are inserted (the repeated insertion at
`provision.nextSibling` reverses their document order). -/
def commentaryPassF (doc : List Commentary) : XForest → XForest
  | .nil => .nil
  | .cons (.text s) f => .cons (.text s) (commentaryPassF doc f)
  | .cons (.elem t a cs) f =>
    if t == "CommentaryRef" then commentaryPassF doc f
    else if isProvision t then
      XForest.append
        (.cons (.elem t a (commentaryPassF doc cs))
          (XForest.ofList (((topRefsF cs).filterMap (mkAccordion doc)).reverse)))
        (commentaryPassF doc f)
    else .cons (.elem t a (commentaryPassF doc cs)) (commentaryPassF doc f)
end

/-- Attribute allow-list of the filter pass (line 584 of the source). -/
def allowedAttrs : List String := ["class", "style", "href", "onclick", "data-ref"]

mutual
/-- Attribute filter pass (lines 580-588): every element keeps only its
allow-listed attributes. -/
def filterAttrsN : XNode → XNode
  | .text s => .text s
  | .elem t a cs => .elem t (a.filter fun p => allowedAttrs.contains p.1) (filterAttrsF cs)
/-- Attribute filter pass on a sibling list. -/
def filterAttrsF : XForest → XForest
  | .nil => .nil
  | .cons n f => .cons (filterAttrsN n) (filterAttrsF f)
end

/-- Tags matched by `querySelectorAll('Reference, InternalLink, Citation')`. -/
def isRefTag (t : String) : Bool := t == "Reference" || t == "InternalLink" || t == "Citation"

mutual
/-- Reference pass (lines 590-610): a reference element with a truthy `URI`
or `Ref` attribute becomes an internal-link anchor carrying its text
content (the click handler is a JS property, not a serialized attribute);
one without becomes a plain text node.  A nested reference element is
detached together with its ancestor, matching the snapshot semantics of the
DOM loop. -/
def resolveRefsN : XNode → XNode
  | .text s => .text s
  | .elem t a cs =>
    if isRefTag t then
      match (truthyStr (getAttr "URI" a)).orElse (fun _ => truthyStr (getAttr "Ref" a)) with
      | some href =>
        .elem "a" [("href", "#"), ("class", "internal-link"), ("data-ref", href)]
          (.cons (.text (textContentF cs)) .nil)
      | none => .text (textContentF cs)
    else .elem t a (resolveRefsF cs)
/-- Reference pass on a sibling list. -/
def resolveRefsF : XForest → XForest
  | .nil => .nil
  | .cons n f => .cons (resolveRefsN n) (resolveRefsF f)
end

/-- Wrapper tags flattened to their text content (lines 612-615). -/
def tagsToFlatten : List String :=
  ["Substitution", "Addition", "Repeal", "Abbreviation",
   "Emphasis", "Strong", "SmallCaps", "Text", "Para"]

mutual
/-- One flattening pass for a single tag (lines 617-624): topmost matching
elements become text nodes holding their text content. -/
def flattenTagN (t : String) : XNode → XNode
  | .text s => .text s
  | .elem tg a cs =>
    if tg == t then .text (textContentF cs) else .elem tg a (flattenTagF t cs)
/-- Flattening pass on a sibling list. -/
def flattenTagF (t : String) : XForest → XForest
  | .nil => .nil
  | .cons n f => .cons (flattenTagN t n) (flattenTagF t f)
end

/-- Provision Processor `processProvisionXML` (lines 521-628): on the cloned
body element run the commentary pass, the attribute filter, the reference
pass, and the flattening passes, in source order; the final `XMLSerializer`
step preserves the resulting element and attribute structure. -/
def processProvisionXML (body : XNode) (doc : List Commentary) : XNode :=
  tagsToFlatten.foldl (fun acc t => flattenTagN t acc)
    (resolveRefsN (filterAttrsN (commentaryPassN doc body)))

mutual
/-- Check that every element of a node carries only allow-listed
attributes. -/
def attrsWithinN (allowed : List String) : XNode → Bool
  | .text _ => true
  | .elem _ a cs => (a.all fun p => allowed.contains p.1) && attrsWithinF allowed cs
/-- Check over a sibling list. -/
def attrsWithinF (allowed : List String) : XForest → Bool
  | .nil => true
  | .cons n f => attrsWithinN allowed n && attrsWithinF allowed f
end

end DocumentViewer

open legislationAPI DocumentViewer

/-! Concrete fixtures used by witnesses and counterexamples. -/

/-- A 1001-character content payload clearing the acceptance gates. -/
def c1Big : String := ⟨List.replicate 1001 'a'⟩

/-- DOM fixture whose main content selector returns the large payload. -/
def c1Page : Page :=
  { hasLegVersions := false, hasVersionClass := false, bodyText := "",
    select := fun sel => if sel = "#viewLegContents" then some ⟨c1Big, c1Big⟩ else none }

/-- Transport fixture failing the first two candidates and succeeding on
the third. -/
def c1Env : DocEnv :=
  { fetch := fun u =>
      if u = "https://x/a" then .resp false ""
      else if u = "https://x/a/enacted" then .resp false ""
      else if u = "https://x/a/contents" then .resp true "H"
      else .resp false "",
    parse := fun _ => c1Page }

/-- DOM fixture whose body text carries the three interstitial markers. -/
def c2Env : DocEnv :=
  { fetch := fun _ => .resp true "x",
    parse := fun _ =>
      { hasLegVersions := false, hasVersionClass := false,
        bodyText := "Latest available Point in Time Original (As enacted)",
        select := fun _ => none } }

/-- Transport fixture failing every candidate. -/
def c9Env : DocEnv :=
  { fetch := fun _ => .resp false "",
    parse := fun _ =>
      { hasLegVersions := false, hasVersionClass := false, bodyText := "",
        select := fun _ => none } }

/-- Search environment fixture with a failing transport. -/
def c10Env : SearchEnv :=
  { fetch := fun _ => .resp false "", parseEntries := fun _ => [],
    encodeURIComponent := id, paramsToString := fun _ => "" }

/-- Empty search parameter set. -/
def c10Params : LegislationSearchParams :=
  { title := none, type := none, year := none, number := none,
    startYear := none, endYear := none, resultsCount := none }

/-- Provision fragment whose only element is a commentary reference inside
a `P1` provision. -/
def c5Body : XNode :=
  .elem "Body" [] (XForest.ofList
    [ .elem "P1" [] (XForest.ofList
        [ .elem "CommentaryRef" [("Ref", "c1")] .nil ]) ])

/-- Commentary table resolving that reference to a textual amendment. -/
def c5Comms : List Commentary := [⟨"c1", some "F", "Textual amendment note"⟩]

/-! Helper lemmas about the JS string primitives. -/

theorem isPrefixOf_self_append (p t : List Char) : p.isPrefixOf (p ++ t) = true := by
  induction p with
  | nil => simp
  | cons a as ih => simp [List.isPrefixOf, ih]

theorem isPrefixOf_self (p : List Char) : p.isPrefixOf p = true := by
  have h := isPrefixOf_self_append p []
  rwa [List.append_nil] at h

theorem take_of_isPrefixOf : ∀ (p l : List Char), p.isPrefixOf l = true → l.take p.length = p := by
  intro p
  induction p with
  | nil => intro l _; rfl
  | cons a as ih =>
    intro l h
    cases l with
    | nil => simp [List.isPrefixOf] at h
    | cons b bs =>
      simp only [List.isPrefixOf, Bool.and_eq_true, beq_iff_eq] at h
      simp [List.take, ih bs h.2, h.1]

theorem isPrefixOf_of_take : ∀ (p l : List Char), l.take p.length = p → p.isPrefixOf l = true := by
  intro p
  induction p with
  | nil => intro l _; simp
  | cons a as ih =>
    intro l h
    cases l with
    | nil => simp at h
    | cons b bs =>
      simp only [List.length_cons, List.take_succ_cons, List.cons.injEq] at h
      simp [List.isPrefixOf, h.1, ih bs h.2]

theorem length_le_of_isPrefixOf : ∀ (p l : List Char), p.isPrefixOf l = true → p.length ≤ l.length := by
  intro p
  induction p with
  | nil => intro l _; simp
  | cons a as ih =>
    intro l h
    cases l with
    | nil => simp [List.isPrefixOf] at h
    | cons b bs =>
      simp only [List.isPrefixOf, Bool.and_eq_true] at h
      have := ih bs h.2
      simp [List.length_cons]
      omega

theorem isPrefixOf_append_of_le : ∀ (p q : List Char), p.length ≤ q.length →
    ∀ r : List Char, p.isPrefixOf (q ++ r) = p.isPrefixOf q := by
  intro p
  induction p with
  | nil => intro q _ r; simp [List.isPrefixOf]
  | cons a as ih =>
    intro q hlen r
    cases q with
    | nil => simp at hlen
    | cons b bs =>
      simp only [List.length_cons, Nat.add_le_add_iff_right] at hlen
      simp [List.isPrefixOf, ih bs hlen r]

theorem isPrefixOf_append_right : ∀ (p q : List Char), p.isPrefixOf q = true →
    ∀ r : List Char, p.isPrefixOf (q ++ r) = true := by
  intro p
  induction p with
  | nil => intro q _ r; simp
  | cons a as ih =>
    intro q h r
    cases q with
    | nil => simp [List.isPrefixOf] at h
    | cons b bs =>
      simp only [List.isPrefixOf, Bool.and_eq_true] at h
      simp [List.isPrefixOf, h.1, ih bs h.2 r]

theorem isPrefixOf_trans : ∀ (p q l : List Char), p.isPrefixOf q = true →
    q.isPrefixOf l = true → p.isPrefixOf l = true := by
  intro p
  induction p with
  | nil => intro q l _ _; simp
  | cons a as ih =>
    intro q l h1 h2
    cases q with
    | nil => simp [List.isPrefixOf] at h1
    | cons b bs =>
      cases l with
      | nil => simp [List.isPrefixOf] at h2
      | cons c cs =>
        simp only [List.isPrefixOf, Bool.and_eq_true, beq_iff_eq] at h1 h2
        simp [List.isPrefixOf, h1.1, h2.1, ih bs cs h1.2 h2.2]

theorem containsL_of_isPrefixOf (p s : List Char) (h : p.isPrefixOf s = true) :
    containsL p s = true := by
  cases s with
  | nil => simpa [containsL] using h
  | cons c rest => simp [containsL, h]

theorem containsL_cons_of (p : List Char) (c : Char) (rest : List Char)
    (h : containsL p rest = true) : containsL p (c :: rest) = true := by
  simp [containsL, h]

theorem containsL_append_left : ∀ (x p rest : List Char), containsL p rest = true →
    containsL p (x ++ rest) = true := by
  intro x
  induction x with
  | nil => intro p rest h; simpa using h
  | cons c xs ih => intro p rest h; simpa using containsL_cons_of p c (xs ++ rest) (ih p rest h)

theorem containsL_append_middle (p x y : List Char) : containsL p (x ++ (p ++ y)) = true :=
  containsL_append_left x p (p ++ y)
    (containsL_of_isPrefixOf p (p ++ y) (isPrefixOf_self_append p y))

theorem containsL_mono : ∀ (p2 p s : List Char), p2.isPrefixOf p = true →
    containsL p s = true → containsL p2 s = true := by
  intro p2 p s
  induction s with
  | nil =>
    intro h1 h2
    simp only [containsL] at h2 ⊢
    exact isPrefixOf_trans p2 p [] h1 h2
  | cons c rest ih =>
    intro h1 h2
    simp only [containsL, Bool.or_eq_true] at h2 ⊢
    cases h2 with
    | inl h => exact Or.inl (isPrefixOf_trans p2 p (c :: rest) h1 h)
    | inr h => exact Or.inr (ih h1 h)




theorem replaceFirst_of_not_contains (pat rep : List Char) :
    ∀ s : List Char, containsL pat s = false → replaceFirstL pat rep s = s := by
  intro s
  induction s with
  | nil =>
    intro h
    simp only [containsL] at h
    cases pat with
    | nil => simp [List.isPrefixOf] at h
    | cons a as => simp [replaceFirstL, List.isEmpty]
  | cons c rest ih =>
    intro h
    simp only [containsL, Bool.or_eq_false_iff] at h
    simp [replaceFirstL, h.1, ih h.2]

theorem replaceFirst_append_pat (pat rep : List Char) :
    ∀ base : List Char, noHitBefore pat pat base = true →
      replaceFirstL pat rep (base ++ pat) = base ++ rep := by
  intro base
  induction base with
  | nil =>
    intro _
    cases pat with
    | nil => simp [replaceFirstL, List.isEmpty]
    | cons a as =>
      simp [replaceFirstL, isPrefixOf_self (a :: as), List.drop_length]
  | cons c b' ih =>
    intro h
    simp only [noHitBefore, Bool.and_eq_true, Bool.not_eq_true'] at h
    simp only [List.cons_append] at h ⊢
    simp [replaceFirstL, h.1, ih h.2]

theorem removeAllGo_of_not_contains (pat : List Char) :
    ∀ (fuel : Nat) (s : List Char), containsL pat s = false → removeAllGo pat fuel s = s := by
  intro fuel
  induction fuel with
  | zero => intro s _; cases s <;> rfl
  | succ f ih =>
    intro s h
    cases s with
    | nil => rfl
    | cons c rest =>
      simp only [containsL, Bool.or_eq_false_iff] at h
      simp [removeAllGo, h.1, ih rest h.2]

theorem removeAllGo_append_pat (pat : List Char) (hne : pat ≠ []) :
    ∀ (base : List Char) (fuel : Nat), noHitBefore pat pat base = true →
      base.length + pat.length ≤ fuel → removeAllGo pat fuel (base ++ pat) = base := by
  intro base
  induction base with
  | nil =>
    intro fuel _ hfuel
    cases pat with
    | nil => exact absurd rfl hne
    | cons a as =>
      cases fuel with
      | zero => simp at hfuel
      | succ f =>
        simp only [List.nil_append]
        simp [removeAllGo, isPrefixOf_self (a :: as), List.isEmpty, List.drop_length]
  | cons c b' ih =>
    intro fuel h hfuel
    simp only [noHitBefore, Bool.and_eq_true, Bool.not_eq_true'] at h
    cases fuel with
    | zero => simp [List.length_cons] at hfuel
    | succ f =>
      simp only [List.cons_append] at h ⊢
      have hf : b'.length + pat.length ≤ f := by
        simp only [List.length_cons] at hfuel; omega
      simp [removeAllGo, h.1, ih f h.2 hf]

theorem removeDatesGo_of_free :
    ∀ (fuel : Nat) (s : List Char), dateFreeL s = true → removeDatesGo fuel s = s := by
  intro fuel
  induction fuel with
  | zero => intro s _; cases s <;> rfl
  | succ f ih =>
    intro s h
    cases s with
    | nil => rfl
    | cons c rest =>
      simp only [dateFreeL, Bool.and_eq_true, Option.isNone_iff_eq_none] at h
      simp [removeDatesGo, h.1, ih rest h.2]

theorem removeDatesGo_append (tail : List Char) (htail : matchDate tail = some []) :
    ∀ (base : List Char) (fuel : Nat), dateSafeBefore tail base = true →
      base.length + 1 ≤ fuel → removeDatesGo fuel (base ++ tail) = base := by
  intro base
  induction base with
  | nil =>
    intro fuel _ hfuel
    cases fuel with
    | zero => simp at hfuel
    | succ f =>
      cases tail with
      | nil => simp [matchDate] at htail
      | cons t ts => simp [removeDatesGo, htail]
  | cons c b' ih =>
    intro fuel h hfuel
    simp only [dateSafeBefore, Bool.and_eq_true, Option.isNone_iff_eq_none] at h
    cases fuel with
    | zero => simp [List.length_cons] at hfuel
    | succ f =>
      simp only [List.cons_append] at h ⊢
      have hf : b'.length + 1 ≤ f := by
        simp only [List.length_cons] at hfuel; omega
      simp [removeDatesGo, h.1, ih f h.2 hf]


theorem cleanUrlL_of_patFree (s : List Char) (h : patFreeL s = true) :
    legislationAPI.cleanUrlL s = s := by
  simp only [patFreeL, Bool.and_eq_true, Bool.not_eq_true'] at h
  obtain ⟨⟨⟨⟨h1, h2⟩, h3⟩, h4⟩, h5⟩ := h
  unfold legislationAPI.cleanUrlL removeAllL removeDatesL
  rw [replaceFirst_of_not_contains _ _ _ h1, replaceFirst_of_not_contains _ _ _ h2,
    replaceFirst_of_not_contains _ _ _ h3, removeDatesGo_of_free _ _ h4,
    removeAllGo_of_not_contains _ _ _ h5]

/-! Claim theorems. -/

open legislationAPI DocumentViewer

/-- Claim C3 counterexample: with no metadata block at all, the classifier
returns Unknown even when the URL contains the enacted marker, contradicting
the claim that the URL check applies whether or not metadata is present. -/
theorem extractStatus_nullMetadata_cex :
    (extractStatusFromMetadata none
        (some "https://www.legislation.gov.uk/ukpga/2006/46/enacted")).label = "Unknown" ∧
    "Unknown" ≠ "As Enacted" :=
  ⟨rfl, by decide⟩

/-- Claim C3 (amended): when a metadata block is present, a URL containing
the `/enacted` marker (case-insensitive) forces the As Enacted status
regardless of the metadata contents; otherwise unapplied effects, then a
modification timestamp, then the latest-available default apply in that
order; with no metadata at all the classifier returns Unknown — the
metadata-presence check precedes the URL check. -/
theorem extractStatus_decision_order :
    (∀ (m : Metadata) (u : String), jsIncludes (jsToLower u) "/enacted" = true →
      (extractStatusFromMetadata (some m) (some u)).label = "As Enacted") ∧
    (∀ (m : Metadata) (u : String), jsIncludes (jsToLower u) "/enacted" = false →
      m.hasUnappliedEffect = true →
      (extractStatusFromMetadata (some m) (some u)).label = "Revised (Changes Pending)") ∧
    (∀ (m : Metadata) (u : String), jsIncludes (jsToLower u) "/enacted" = false →
      m.hasUnappliedEffect = false → m.hasModified = true →
      (extractStatusFromMetadata (some m) (some u)).label = "Revised") ∧
    (∀ (m : Metadata) (u : String), jsIncludes (jsToLower u) "/enacted" = false →
      m.hasUnappliedEffect = false → m.hasModified = false →
      (extractStatusFromMetadata (some m) (some u)).label = "Latest Available") ∧
    (∀ u : Option String, (extractStatusFromMetadata none u).label = "Unknown") := by
  refine ⟨?_, ?_, ?_, ?_, ?_⟩ <;> intros <;> simp_all [extractStatusFromMetadata]

/-- Claim C3 witness: a metadata block with every flag set is still
classified As Enacted under an enacted URL. -/
theorem extractStatus_decision_order_witness :
    (extractStatusFromMetadata (some ⟨some "1 January 2020", true, true⟩)
        (some "https://www.legislation.gov.uk/ukpga/2006/46/enacted")).label = "As Enacted" :=
  extractStatus_decision_order.1 ⟨some "1 January 2020", true, true⟩
    "https://www.legislation.gov.uk/ukpga/2006/46/enacted" (by decide)

/-- Claim C8 counterexample: an entry carrying a title but no link is
dropped, and so is one carrying a link but no title, contradicting the claim
that one of the two fields suffices for the entry to be processed. -/
theorem processEntry_one_field_cex :
    processEntry ⟨some "Companies Act 2006", none, none, none⟩ = none ∧
    processEntry ⟨none, some "https://www.legislation.gov.uk/ukpga/2006/46", none, none⟩ = none := by
  constructor <;> rfl

/-- Claim C8 (amended): the feed normalizer drops an entry silently exactly
when its trimmed title is empty or its link is missing or empty — both
fields are required; dropping one entry does not disturb the others and
raises no error. -/
theorem processEntry_drop_exact :
    (∀ e : AtomEntry,
      (processEntry e).isSome =
        (((e.titleText.map jsTrim).getD "" != "") && (e.linkHref.getD "" != ""))) ∧
    (∀ (es : List AtomEntry) (e : AtomEntry), processEntry e = none →
      parseAtomFeed (e :: es) = parseAtomFeed es) ∧
    (∀ (es : List AtomEntry) (e : AtomEntry) (r : SearchResult), processEntry e = some r →
      parseAtomFeed (e :: es) = r :: parseAtomFeed es) := by
  refine ⟨?_, ?_, ?_⟩
  · intro e
    unfold processEntry
    by_cases h : (((e.titleText.map jsTrim).getD "" != "") && (e.linkHref.getD "" != "")) = true
    · simp [h]
    · simp only [Bool.not_eq_true] at h
      simp [h]
  · intro es e h
    simp [parseAtomFeed, List.filterMap_cons, h]
  · intro es e r h
    simp [parseAtomFeed, List.filterMap_cons, h]

/-- Claim C8 witness: a concrete title-only entry is dropped from a
singleton feed without error. -/
theorem processEntry_drop_exact_witness :
    parseAtomFeed [⟨some "Companies Act 2006", none, none, none⟩] = [] :=
  (processEntry_drop_exact.2.1 [] ⟨some "Companies Act 2006", none, none, none⟩ rfl).trans rfl

theorem data_append (s t : String) : (s ++ t).data = s.data ++ t.data := rfl

set_option maxRecDepth 4000 in
theorem exhaustedMessage_includes_url (url b : String) :
    jsIncludes (exhaustedMessage url b) url = true := by
  unfold jsIncludes exhaustedMessage
  rw [data_append, data_append, data_append, data_append, data_append, data_append]
  simp only [List.append_assoc]
  apply containsL_append_left
  exact containsL_of_isPrefixOf _ _ (isPrefixOf_self_append url.data _)

set_option maxRecDepth 4000 in
theorem errorMessage_includes_url (url msg : String) :
    jsIncludes (errorMessage url msg) url = true := by
  unfold jsIncludes errorMessage
  rw [data_append, data_append, data_append, data_append]
  simp only [List.append_assoc]
  apply containsL_append_left
  apply containsL_append_left
  apply containsL_append_left
  exact containsL_of_isPrefixOf _ _ (isPrefixOf_self_append url.data _)

theorem runStrategies_trace_leads (e : DocEnv) : ∀ l : List String,
    (runStrategies e l).2 <+: l := by
  intro l
  induction l with
  | nil => exact ⟨[], rfl⟩
  | cons u rest ih =>
    obtain ⟨t, ht⟩ := ih
    cases hf : e.fetch u with
    | thrown m => exact ⟨rest, by simp [runStrategies, hf]⟩
    | resp ok body =>
      cases ok with
      | false => exact ⟨t, by simp [runStrategies, hf, ht]⟩
      | true =>
        cases hp : processPayload e body with
        | some c => exact ⟨rest, by simp [runStrategies, hf, hp]⟩
        | none => exact ⟨t, by simp [runStrategies, hf, hp, ht]⟩

/-- Claim C9: whenever the strategy loop does not accept any payload — every
fetch fails, is classified as an interstitial, throws, or yields rejected
content — `getDocument` still returns a plain markup string that references
the original URL; the transport exception case is absorbed by the catch
branch and never escapes. -/
theorem getDocument_failure_references_url (env : DocEnv) (url : String)
    (h : (runStrategies env (strategies (cleanUrl url))).1.notSuccess = true) :
    jsIncludes (getDocument env url) url = true := by
  unfold getDocument
  simp only [USE_PROXY, Bool.true_eq_false, if_false]
  cases hr : (runStrategies env (strategies (cleanUrl url))).1 with
  | success c => rw [hr] at h; simp [LoopResult.notSuccess] at h
  | exhausted => exact exhaustedMessage_includes_url url (cleanUrl url)
  | thrown m => exact errorMessage_includes_url url m

/-- Claim C9 witness: a transport failing every candidate yields a failure
string containing the original URL. -/
theorem getDocument_failure_references_url_witness :
    jsIncludes (getDocument c9Env "https://x/a") "https://x/a" = true :=
  getDocument_failure_references_url c9Env "https://x/a" (by decide)

/-- Claim C1: `getDocument` derives its candidates from the cleaned base
URL in the fixed order base, `/enacted`, `/contents`, fetches them strictly
in that order (the fetch trace is always a prefix of the candidate list),
and stops at the first accepted payload; when the transport fails the first
two candidates and the third payload is accepted, the returned value is
exactly the third candidate's extracted content and exactly three fetches
are issued. -/
theorem getDocument_candidate_order (env : DocEnv) (url b1 b2 html c : String)
    (h1 : env.fetch (cleanUrl url) = .resp false b1)
    (h2 : env.fetch (cleanUrl url ++ "/enacted") = .resp false b2)
    (h3 : env.fetch (cleanUrl url ++ "/contents") = .resp true html)
    (h4 : processPayload env html = some c) :
    getDocument env url = c ∧
    (runStrategies env (strategies (cleanUrl url))).2 =
      [cleanUrl url, cleanUrl url ++ "/enacted", cleanUrl url ++ "/contents"] ∧
    (∀ (e2 : DocEnv) (l : List String), (runStrategies e2 l).2 <+: l) := by
  have hrun : runStrategies env (strategies (cleanUrl url)) =
      (.success c, [cleanUrl url, cleanUrl url ++ "/enacted", cleanUrl url ++ "/contents"]) := by
    simp [strategies, runStrategies, h1, h2, h3, h4]
  refine ⟨?_, by rw [hrun], fun e2 l => runStrategies_trace_leads e2 l⟩
  unfold getDocument
  simp [USE_PROXY, hrun]

set_option maxRecDepth 20000 in
/-- Claim C1 witness: the concrete transport failing the first two
candidates returns the third candidate's extracted content. -/
theorem getDocument_candidate_order_witness :
    getDocument c1Env "https://x/a" = c1Big ∧
    (runStrategies c1Env (strategies (cleanUrl "https://x/a"))).2 =
      [cleanUrl "https://x/a", cleanUrl "https://x/a" ++ "/enacted",
       cleanUrl "https://x/a" ++ "/contents"] := by
  have h := getDocument_candidate_order c1Env "https://x/a" "" "" "H" c1Big rfl rfl rfl rfl
  exact ⟨h.1, h.2.1⟩

/-- Claim C2: a payload whose body text carries all three interstitial
marker phrases and whose raw size is under the 30000-character threshold is
classified as an interstitial: the candidate is rejected — never accepted,
whatever the content selectors would return — and the strategy loop
continues with the next candidate. -/
theorem interstitial_rejected (env : DocEnv) (html : String)
    (h1 : jsIncludes (env.parse html).bodyText "Latest available" = true)
    (h2 : jsIncludes (env.parse html).bodyText "Point in Time" = true)
    (h3 : jsIncludes (env.parse html).bodyText "Original (As enacted)" = true)
    (h4 : html.length < 30000) :
    processPayload env html = none ∧
    ∀ (u : String) (rest : List String), env.fetch u = .resp true html →
      runStrategies env (u :: rest) =
        ((runStrategies env rest).1, u :: (runStrategies env rest).2) := by
  have hOrig : jsIncludes (env.parse html).bodyText "Original" = true := by
    unfold jsIncludes at h3 ⊢
    exact containsL_mono _ _ _ (by decide) h3
  have hd : decide (html.length < 30000) = true := by simp [h4]
  have hnone : processPayload env html = none := by
    unfold processPayload
    simp [h1, h2, hOrig, hd]
  refine ⟨hnone, ?_⟩
  intro u rest hf
  conv_lhs => rw [runStrategies]
  simp [hf, hnone]

/-- Claim C2 witness: a small concrete payload carrying the three markers
is rejected. -/
theorem interstitial_rejected_witness :
    processPayload c2Env "x" = none :=
  (interstitial_rejected c2Env "x" (by decide) (by decide) (by decide) (by decide)).1

/-- Claim C4: with one bare top-level item, one Part carrying two child
items, and one Schedule carrying one child item, the TOC builder emits the
root sequence bare item, then Part, then Schedule — the three independent
passes in that order — with the Part's children attached beneath it in
source order at level 1. -/
theorem parseTOC_pass_order (b : ContentsItemData) (pd sd : ContentsGroupData)
    (i1 i2 j : ContentsItemData) (hp : pd.items = [i1, i2]) (hs : sd.items = [j]) :
    ∃ x y z, parseTOCFromXML ⟨[b], [pd], [sd]⟩ = [x, y, z] ∧
      x = mkBareItem 0 b ∧ x.children = [] ∧ x.level = 0 ∧
      y.id = jsOrStr pd.contentRef "part-0" ∧
      y.children.map TOCItem.number =
        [cleanHeadingText i1.numberText, cleanHeadingText i2.numberText] ∧
      y.children.map TOCItem.level = [1, 1] ∧
      z.id = jsOrStr sd.contentRef "schedule-0" ∧
      z.children.map TOCItem.number = [cleanHeadingText j.numberText] := by
  refine ⟨mkBareItem 0 b, mkPartItem 0 pd, mkScheduleItem 0 sd,
    ?_, rfl, rfl, rfl, ?_, ?_, ?_, ?_, ?_⟩
  · simp [parseTOCFromXML]
  · rfl
  · simp [mkPartItem, TOCItem.children, hp, mkPartChild, TOCItem.number]
  · simp [mkPartItem, TOCItem.children, hp, mkPartChild, TOCItem.level]
  · rfl
  · simp [mkScheduleItem, TOCItem.children, hs, mkScheduleChild, TOCItem.number]

/-- Claim C4 witness: a concrete outline with one bare item, a two-child
Part, and a one-child Schedule produces exactly three root nodes. -/
theorem parseTOC_pass_order_witness :
    (parseTOCFromXML ⟨[⟨none, none, none, none, none⟩],
        [⟨some "p1", none, none, none, none,
          [⟨none, none, none, some "1", none⟩, ⟨none, none, none, some "2", none⟩]⟩],
        [⟨some "s1", none, none, none, none,
          [⟨none, none, none, some "3", none⟩]⟩]⟩).length = 3 := by
  obtain ⟨x, y, z, hxyz, hrest⟩ :=
    parseTOC_pass_order ⟨none, none, none, none, none⟩
      ⟨some "p1", none, none, none, none,
        [⟨none, none, none, some "1", none⟩, ⟨none, none, none, some "2", none⟩]⟩
      ⟨some "s1", none, none, none, none, [⟨none, none, none, some "3", none⟩]⟩
      ⟨none, none, none, some "1", none⟩ ⟨none, none, none, some "2", none⟩
      ⟨none, none, none, some "3", none⟩ rfl rfl
  rw [hxyz]
  rfl

/-- Claim C10: `search` always returns a result list — every transport
outcome is handled — and on a thrown fetch or a non-success status it
silently falls back to the built-in five-entry mock list filtered by
case-insensitive title containment of the query title; only on a success
status does it parse the fetched feed. -/
theorem search_fallback_behavior :
    (∀ (env : SearchEnv) (p : LegislationSearchParams) (m : String),
      env.fetch (searchProxyUrl env p) = .thrown m →
      search env p = getMockResults (p.title.getD "")) ∧
    (∀ (env : SearchEnv) (p : LegislationSearchParams) (b : String),
      env.fetch (searchProxyUrl env p) = .resp false b →
      search env p = getMockResults (p.title.getD "")) ∧
    (∀ (env : SearchEnv) (p : LegislationSearchParams) (xml : String),
      env.fetch (searchProxyUrl env p) = .resp true xml →
      search env p = parseAtomFeed (env.parseEntries xml)) ∧
    mockResults.length = 5 ∧
    (∀ (q : String) (r : SearchResult), r ∈ getMockResults q →
      r ∈ mockResults ∧ (q ≠ "" → jsIncludes (jsToLower r.title) (jsToLower q) = true)) := by
  refine ⟨?_, ?_, ?_, rfl, ?_⟩
  · intro env p m h; simp [search, USE_PROXY, h]
  · intro env p b h; simp [search, USE_PROXY, h]
  · intro env p xml h; simp [search, USE_PROXY, h]
  · intro q r hr
    unfold getMockResults at hr
    have hm := List.mem_filter.mp hr
    refine ⟨hm.1, fun hq => ?_⟩
    have hb := hm.2
    simp only [Bool.or_eq_true, beq_iff_eq] at hb
    cases hb with
    | inl h' => exact absurd h' hq
    | inr h' => exact h'

/-- Claim C10 witness: with a failing transport the search resolves to the
unfiltered mock list. -/
theorem search_fallback_behavior_witness :
    search c10Env c10Params = getMockResults "" :=
  search_fallback_behavior.2.1 c10Env c10Params "" rfl

theorem drop_self_append : ∀ (p l : List Char), (p ++ l).drop p.length = l := by
  intro p
  induction p with
  | nil => intro l; rfl
  | cons a as ih => intro l; simp [ih l]

theorem take_take_le : ∀ (n m : Nat), n ≤ m → ∀ l : List Char, (l.take m).take n = l.take n := by
  intro n
  induction n with
  | zero => intro m _ l; simp
  | succ k ih =>
    intro m hm l
    cases m with
    | zero => simp at hm
    | succ m' =>
      cases l with
      | nil => simp
      | cons c cs => simp [List.take_succ_cons, ih m' (Nat.le_of_succ_le_succ hm) cs]

theorem replaceFirstL_self_append (pat rep l : List Char) (h : pat ≠ []) :
    replaceFirstL pat rep (pat ++ l) = rep ++ l := by
  cases pat with
  | nil => exact absurd rfl h
  | cons a as =>
    have hp : (a :: as).isPrefixOf (a :: (as ++ l)) = true := isPrefixOf_self_append (a :: as) l
    have hd : List.drop (a :: as).length (a :: (as ++ l)) = l := drop_self_append (a :: as) l
    show (if (a :: as).isPrefixOf (a :: (as ++ l)) = true then
            rep ++ List.drop (a :: as).length (a :: (as ++ l))
          else a :: replaceFirstL (a :: as) rep (as ++ l)) = rep ++ l
    simp [hp, hd]

theorem str_ne_empty_of_data (a : String) (h : a.data ≠ []) : a ≠ "" := by
  intro he
  apply h
  rw [he]

theorem not_http7_of_https (l : List Char) (h : "https://".data.isPrefixOf l = true) :
    "http://".data.isPrefixOf l = false := by
  cases hh : "http://".data.isPrefixOf l with
  | false => rfl
  | true =>
    exfalso
    have t8 := take_of_isPrefixOf _ _ h
    have t7 := take_of_isPrefixOf _ _ hh
    have hlen7 : "http://".data.length = 7 := by decide
    have hlen8 : "https://".data.length = 8 := by decide
    rw [hlen7] at t7
    rw [hlen8] at t8
    have : l.take 7 = ("https://".data).take 7 := by
      rw [← t8, take_take_le 7 8 (by omega)]
    rw [t7] at this
    simp at this

theorem http4_of_https (l : List Char) (h : "https://".data.isPrefixOf l = true) :
    "http".data.isPrefixOf l = true := by
  have t8 := take_of_isPrefixOf _ _ h
  have hlen8 : "https://".data.length = 8 := by decide
  rw [hlen8] at t8
  apply isPrefixOf_of_take
  have hlen4 : "http".data.length = 4 := by decide
  rw [hlen4]
  have : l.take 4 = ("https://".data).take 4 := by
    rw [← t8, take_take_le 4 8 (by omega)]
  rw [this]
  decide

theorem not_http7_of_not_http4 (l : List Char) (h : "http".data.isPrefixOf l = false) :
    "http://".data.isPrefixOf l = false := by
  cases hh : "http://".data.isPrefixOf l with
  | false => rfl
  | true =>
    have : "http".data.isPrefixOf l = true :=
      isPrefixOf_trans _ _ _ (by decide) hh
    rw [this] at h
    exact absurd h (by simp)

theorem processEntry_url_formula (t s upd : Option String) (u : String) (hu : u ≠ "") :
    (processEntry ⟨t, some u, s, upd⟩).map SearchResult.url =
      (if ((t.map jsTrim).getD "" != "") = true then
        some (replaceFirstS "/contents" ""
          (if (!jsStartsWith
                (if jsStartsWith u "http://" then replaceFirstS "http://" "https://" u else u)
                "http") = true then
            LEGISLATION_BASE ++
              (if jsStartsWith u "http://" then replaceFirstS "http://" "https://" u else u)
          else
            (if jsStartsWith u "http://" then replaceFirstS "http://" "https://" u else u)))
      else none) := by
  have hub : (u != "") = true := by
    simp [bne_iff_ne, hu]
  by_cases ht : (((t.map jsTrim).getD "" : String) != "") = true
  · simp [processEntry, ht, hub]
  · simp only [Bool.not_eq_true] at ht
    simp [processEntry, ht, hub]

/-- Claim C6 counterexample: two feed links differing only by a trailing
date segment produce different emitted urls — the feed normalizer does not
strip date/version path segments. -/
theorem parseAtomFeed_no_date_strip_cex :
    (processEntry ⟨some "T",
        some "https://www.legislation.gov.uk/ukpga/2006/46/2020-01-01", none, none⟩).map
      SearchResult.url ≠
    (processEntry ⟨some "T",
        some "https://www.legislation.gov.uk/ukpga/2006/46", none, none⟩).map
      SearchResult.url := by
  decide

/-- Claim C6 (amended): every emitted url is obtained by upgrading a leading
`http://` to `https://`, prefixing a relative link with the secure base
origin, and removing the first `/contents` substring — so two links
differing only in transport scheme collapse, a link and its base-prefixed
absolute form collapse, and a `/contents` suffix collapses when `/contents`
occurs nowhere else in the link; date/version path segments are not
stripped. -/
theorem parseAtomFeed_url_normalization :
    (∀ (t s upd : Option String) (u : String),
      (processEntry ⟨t, some ("http://" ++ u), s, upd⟩).map SearchResult.url =
      (processEntry ⟨t, some ("https://" ++ u), s, upd⟩).map SearchResult.url) ∧
    (∀ (t s upd : Option String) (u : String), jsStartsWith u "https://" = true →
      containsL "/contents".data u.data = false →
      noHitBefore "/contents".data "/contents".data u.data = true →
      (processEntry ⟨t, some (u ++ "/contents"), s, upd⟩).map SearchResult.url =
      (processEntry ⟨t, some u, s, upd⟩).map SearchResult.url) ∧
    (∀ (t s upd : Option String) (u : String), jsStartsWith u "http" = false → u ≠ "" →
      (processEntry ⟨t, some u, s, upd⟩).map SearchResult.url =
      (processEntry ⟨t, some (LEGISLATION_BASE ++ u), s, upd⟩).map SearchResult.url) := by
  refine ⟨?_, ?_, ?_⟩
  · intro t s upd u
    have hne1 : ("http://" ++ u) ≠ "" := by
      apply str_ne_empty_of_data
      rw [data_append]
      simp
    have hne2 : ("https://" ++ u) ≠ "" := by
      apply str_ne_empty_of_data
      rw [data_append]
      simp
    have hs1 : jsStartsWith ("http://" ++ u) "http://" = true := by
      show "http://".data.isPrefixOf ("http://" ++ u).data = true
      rw [data_append]
      exact isPrefixOf_self_append _ _
    have hrep : replaceFirstS "http://" "https://" ("http://" ++ u) = "https://" ++ u := by
      show (⟨replaceFirstL "http://".data "https://".data ("http://" ++ u).data⟩ : String) =
        "https://" ++ u
      rw [data_append, replaceFirstL_self_append _ _ _ (by decide)]
      rfl
    have hs2 : jsStartsWith ("https://" ++ u) "http" = true := by
      show "http".data.isPrefixOf ("https://" ++ u).data = true
      rw [data_append]
      exact http4_of_https _ (isPrefixOf_self_append _ _)
    have hs3 : jsStartsWith ("https://" ++ u) "http://" = false := by
      show "http://".data.isPrefixOf ("https://" ++ u).data = false
      rw [data_append]
      exact not_http7_of_https _ (isPrefixOf_self_append _ _)
    rw [processEntry_url_formula t s upd _ hne1, processEntry_url_formula t s upd _ hne2]
    simp [hs1, hs2, hs3, hrep]
  · intro t s upd u hpre hnc hnh
    have hpreL : "https://".data.isPrefixOf u.data = true := hpre
    have ulen : 8 ≤ u.data.length := by
      have h := length_le_of_isPrefixOf _ _ hpreL
      have h8 : "https://".data.length = 8 := by decide
      omega
    have hdne : u.data ≠ [] := by
      intro hd
      rw [hd] at ulen
      simp at ulen
    have hneu : u ≠ "" := str_ne_empty_of_data u hdne
    have hnec : (u ++ "/contents") ≠ "" := by
      apply str_ne_empty_of_data
      rw [data_append]
      simp [hdne]
    have hs7u : jsStartsWith u "http://" = false := not_http7_of_https _ hpreL
    have hs4u : jsStartsWith u "http" = true := http4_of_https _ hpreL
    have hs7c : jsStartsWith (u ++ "/contents") "http://" = false := by
      show "http://".data.isPrefixOf (u ++ "/contents").data = false
      rw [data_append, isPrefixOf_append_of_le _ _ (by
        have : "http://".data.length = 7 := by decide
        omega) _]
      exact hs7u
    have hs4c : jsStartsWith (u ++ "/contents") "http" = true := by
      show "http".data.isPrefixOf (u ++ "/contents").data = true
      rw [data_append, isPrefixOf_append_of_le _ _ (by
        have : "http".data.length = 4 := by decide
        omega) _]
      exact hs4u
    have hrepc : replaceFirstS "/contents" "" (u ++ "/contents") = u := by
      show (⟨replaceFirstL "/contents".data "".data (u ++ "/contents").data⟩ : String) = u
      rw [data_append, replaceFirst_append_pat _ _ _ hnh, List.append_nil]
    have hrepu : replaceFirstS "/contents" "" u = u := by
      show (⟨replaceFirstL "/contents".data "".data u.data⟩ : String) = u
      rw [replaceFirst_of_not_contains _ _ _ hnc]
    rw [processEntry_url_formula t s upd _ hnec, processEntry_url_formula t s upd _ hneu]
    simp [hs7u, hs4u, hs7c, hs4c, hrepc, hrepu]
  · intro t s upd u h4 hu
    have hs7u : jsStartsWith u "http://" = false := not_http7_of_not_http4 _ h4
    have hneB : (LEGISLATION_BASE ++ u) ≠ "" := by
      apply str_ne_empty_of_data
      rw [data_append]
      simp [show LEGISLATION_BASE.data ≠ [] by decide]
    have hs7B : jsStartsWith (LEGISLATION_BASE ++ u) "http://" = false := by
      show "http://".data.isPrefixOf (LEGISLATION_BASE ++ u).data = false
      rw [data_append, isPrefixOf_append_of_le _ _ (by decide) _]
      decide
    have hs4B : jsStartsWith (LEGISLATION_BASE ++ u) "http" = true := by
      show "http".data.isPrefixOf (LEGISLATION_BASE ++ u).data = true
      rw [data_append, isPrefixOf_append_of_le _ _ (by decide) _]
      decide
    rw [processEntry_url_formula t s upd _ hu, processEntry_url_formula t s upd _ hneB]
    simp [h4, hs7u, hs7B, hs4B]

/-- Claim C6 witness: a concrete legislation link and its `/contents`
variant collapse to the same emitted url. -/
theorem parseAtomFeed_url_normalization_witness :
    (processEntry ⟨some "T",
        some ("https://www.legislation.gov.uk/ukpga/2006/46" ++ "/contents"), none, none⟩).map
      SearchResult.url =
    (processEntry ⟨some "T",
        some "https://www.legislation.gov.uk/ukpga/2006/46", none, none⟩).map
      SearchResult.url :=
  parseAtomFeed_url_normalization.2.1 (some "T") none none
    "https://www.legislation.gov.uk/ukpga/2006/46" (by decide) (by decide) (by decide)

/-- Claim C7 counterexample: the URL cleaning step of `getDocument` is not
idempotent — `/contents` is replaced non-globally, so a URL with two
occurrences keeps one that a second pass then removes — and it does not
normalize the transport scheme. -/
theorem cleanUrl_not_idempotent_cex :
    cleanUrl (cleanUrl "/contents/contents") ≠ cleanUrl "/contents/contents" ∧
    cleanUrl "http://a" ≠ cleanUrl "https://a" := by
  constructor <;> decide

/-- Claim C7 (amended): the cleaning step is idempotent on every URL whose
cleaned form is free of the strippable patterns; a base URL that is itself
pattern-free (with no occurrence crossing the appended junction) is a fixed
point, and appending `/contents`, `/enacted`, or a `/YYYY-MM-DD` date
segment to it normalizes back to the base; the transport scheme is not
rewritten (pattern-free URLs, whatever their scheme, are unchanged).  Full
idempotence and scheme normalization fail, as the counterexample shows. -/
theorem cleanUrl_normalization_properties :
    (∀ s : String, patFreeL (cleanUrl s).data = true → cleanUrl (cleanUrl s) = cleanUrl s) ∧
    (∀ base : String, cleanUrlSafeBase base.data = true →
      cleanUrl base = base ∧ cleanUrl (base ++ "/contents") = base ∧
      cleanUrl (base ++ "/enacted") = base) ∧
    (∀ (base : String) (a b c d e f g h : Char),
      a.isDigit = true → b.isDigit = true → c.isDigit = true → d.isDigit = true →
      e.isDigit = true → f.isDigit = true → g.isDigit = true → h.isDigit = true →
      cleanUrlSafeBase base.data = true →
      containsL "/contents".data (base.data ++ ['/', a, b, c, d, '-', e, f, '-', g, h]) = false →
      containsL "/data.htm".data (base.data ++ ['/', a, b, c, d, '-', e, f, '-', g, h]) = false →
      containsL "/data.html".data (base.data ++ ['/', a, b, c, d, '-', e, f, '-', g, h]) = false →
      dateSafeBefore ['/', a, b, c, d, '-', e, f, '-', g, h] base.data = true →
      cleanUrl (base ++ ⟨['/', a, b, c, d, '-', e, f, '-', g, h]⟩) = base) := by
  refine ⟨?_, ?_, ?_⟩
  · intro s h
    show (⟨cleanUrlL (cleanUrl s).data⟩ : String) = cleanUrl s
    rw [cleanUrlL_of_patFree _ h]
  · intro base hs
    simp only [cleanUrlSafeBase, Bool.and_eq_true, Bool.not_eq_true'] at hs
    obtain ⟨⟨⟨⟨⟨⟨hnhC, hnhE⟩, hpf⟩, heC⟩, heDH⟩, heDHL⟩, heDF⟩ := hs
    have hpf' := hpf
    simp only [patFreeL, Bool.and_eq_true, Bool.not_eq_true'] at hpf'
    obtain ⟨⟨⟨⟨p1, p2⟩, p3⟩, p4⟩, p5⟩ := hpf'
    refine ⟨?_, ?_, ?_⟩
    · show (⟨cleanUrlL base.data⟩ : String) = base
      rw [cleanUrlL_of_patFree _ hpf]
    · show (⟨cleanUrlL (base ++ "/contents").data⟩ : String) = base
      rw [data_append]
      unfold legislationAPI.cleanUrlL removeAllL removeDatesL
      rw [replaceFirst_append_pat _ _ _ hnhC, List.append_nil,
        replaceFirst_of_not_contains _ _ _ p2, replaceFirst_of_not_contains _ _ _ p3,
        removeDatesGo_of_free _ _ p4, removeAllGo_of_not_contains _ _ _ p5]
    · show (⟨cleanUrlL (base ++ "/enacted").data⟩ : String) = base
      rw [data_append]
      unfold legislationAPI.cleanUrlL removeAllL removeDatesL
      rw [replaceFirst_of_not_contains _ _ _ heC, replaceFirst_of_not_contains _ _ _ heDH,
        replaceFirst_of_not_contains _ _ _ heDHL, removeDatesGo_of_free _ _ heDF,
        removeAllGo_append_pat _ (by decide) _ _ hnhE
          (by rw [List.length_append])]
  · intro base a b c d e f g h ha hb hc hd he hf hg hh hs hC hDH hDHL hDS
    simp only [cleanUrlSafeBase, Bool.and_eq_true, Bool.not_eq_true'] at hs
    obtain ⟨⟨⟨⟨⟨⟨hnhC, hnhE⟩, hpf⟩, heC⟩, heDH⟩, heDHL⟩, heDF⟩ := hs
    simp only [patFreeL, Bool.and_eq_true, Bool.not_eq_true'] at hpf
    obtain ⟨⟨⟨⟨p1, p2⟩, p3⟩, p4⟩, p5⟩ := hpf
    have htail : matchDate ['/', a, b, c, d, '-', e, f, '-', g, h] = some [] := by
      simp [matchDate, ha, hb, hc, hd, he, hf, hg, hh]
    show (⟨cleanUrlL (base ++ ⟨['/', a, b, c, d, '-', e, f, '-', g, h]⟩).data⟩ : String) = base
    rw [data_append]
    unfold legislationAPI.cleanUrlL removeAllL removeDatesL
    rw [replaceFirst_of_not_contains _ _ _ hC, replaceFirst_of_not_contains _ _ _ hDH,
      replaceFirst_of_not_contains _ _ _ hDHL,
      removeDatesGo_append _ htail _ _ hDS
        (by rw [List.length_append]; simp),
      removeAllGo_of_not_contains _ _ _ p5]

/-- Claim C7 witness: a concrete legislation base URL absorbs both the
`/contents` and the `/enacted` suffix under cleaning. -/
theorem cleanUrl_normalization_properties_witness :
    cleanUrl ("https://www.legislation.gov.uk/ukpga/2006/46" ++ "/contents") =
      "https://www.legislation.gov.uk/ukpga/2006/46" ∧
    cleanUrl ("https://www.legislation.gov.uk/ukpga/2006/46" ++ "/enacted") =
      "https://www.legislation.gov.uk/ukpga/2006/46" :=
  ⟨(cleanUrl_normalization_properties.2.1 _ (by decide)).2.1,
   (cleanUrl_normalization_properties.2.1 _ (by decide)).2.2⟩

theorem all_filter_self (a : List (String × String)) (P : String × String → Bool) :
    (a.filter P).all P = true := by
  rw [List.all_eq_true]
  intro x hx
  exact (List.mem_filter.mp hx).2

mutual
theorem filterAttrs_allowedN (n : XNode) :
    attrsWithinN allowedAttrs (filterAttrsN n) = true := by
  cases n with
  | text s => rfl
  | elem t a cs =>
    simp [filterAttrsN, attrsWithinN, all_filter_self, filterAttrs_allowedF cs]
theorem filterAttrs_allowedF (f : XForest) :
    attrsWithinF allowedAttrs (filterAttrsF f) = true := by
  cases f with
  | nil => rfl
  | cons n f' =>
    simp [filterAttrsF, attrsWithinF, filterAttrs_allowedN n, filterAttrs_allowedF f']
end

mutual
theorem resolveRefs_allowedN (n : XNode) (h : attrsWithinN allowedAttrs n = true) :
    attrsWithinN allowedAttrs (resolveRefsN n) = true := by
  cases n with
  | text s => rfl
  | elem t a cs =>
    simp only [attrsWithinN, Bool.and_eq_true] at h
    by_cases hr : isRefTag t = true
    · cases hOr : (truthyStr (getAttr "URI" a)).orElse (fun _ => truthyStr (getAttr "Ref" a)) with
      | some href =>
        simp [resolveRefsN, hr, hOr, attrsWithinN, attrsWithinF, allowedAttrs]
      | none => simp [resolveRefsN, hr, hOr, attrsWithinN]
    · simp only [Bool.not_eq_true] at hr
      have hstep : resolveRefsN (.elem t a cs) = .elem t a (resolveRefsF cs) := by
        simp [resolveRefsN, hr]
      rw [hstep]
      simp only [attrsWithinN, Bool.and_eq_true]
      exact ⟨h.1, resolveRefs_allowedF cs h.2⟩
theorem resolveRefs_allowedF (f : XForest) (h : attrsWithinF allowedAttrs f = true) :
    attrsWithinF allowedAttrs (resolveRefsF f) = true := by
  cases f with
  | nil => rfl
  | cons n f' =>
    simp only [attrsWithinF, Bool.and_eq_true] at h
    simp [resolveRefsF, attrsWithinF, resolveRefs_allowedN n h.1, resolveRefs_allowedF f' h.2]
end

mutual
theorem flattenTag_allowedN (t : String) (n : XNode)
    (h : attrsWithinN allowedAttrs n = true) :
    attrsWithinN allowedAttrs (flattenTagN t n) = true := by
  cases n with
  | text s => rfl
  | elem tg a cs =>
    simp only [attrsWithinN, Bool.and_eq_true] at h
    by_cases he : (tg == t) = true
    · simp [flattenTagN, he, attrsWithinN]
    · simp only [Bool.not_eq_true] at he
      have hstep : flattenTagN t (.elem tg a cs) = .elem tg a (flattenTagF t cs) := by
        simp [flattenTagN, he]
      rw [hstep]
      simp only [attrsWithinN, Bool.and_eq_true]
      exact ⟨h.1, flattenTag_allowedF t cs h.2⟩
theorem flattenTag_allowedF (t : String) (f : XForest)
    (h : attrsWithinF allowedAttrs f = true) :
    attrsWithinF allowedAttrs (flattenTagF t f) = true := by
  cases f with
  | nil => rfl
  | cons n f' =>
    simp only [attrsWithinF, Bool.and_eq_true] at h
    simp [flattenTagF, attrsWithinF, flattenTag_allowedN t n h.1, flattenTag_allowedF t f' h.2]
end

theorem flattenFold_allowed (ts : List String) (n : XNode)
    (h : attrsWithinN allowedAttrs n = true) :
    attrsWithinN allowedAttrs (ts.foldl (fun acc t => flattenTagN t acc) n) = true := by
  induction ts generalizing n with
  | nil => exact h
  | cons t ts ih => exact ih _ (flattenTag_allowedN t n h)

/-- Claim C5 counterexample: on a fragment with one commentary reference
inside a provision, the processed output carries an `onclick` attribute (on
the inserted accordion button), which lies outside the claimed four-entry
allow-list of class, style, href and data-ref. -/
theorem processProvision_onclick_cex :
    attrsWithinN ["class", "style", "href", "data-ref"]
      (processProvisionXML c5Body c5Comms) = false := by
  decide

/-- Claim C5 (amended): after provision processing, no element of the
output carries any attribute outside the five-entry allow-list of the code
— class, style, href, onclick, and data-ref — whatever extraneous
attributes the input elements carried; `onclick` is in the list because the
filter keeps it and the inserted accordion buttons rely on it. -/
theorem processProvision_attr_allowlist (body : XNode) (doc : List Commentary) :
    attrsWithinN allowedAttrs (processProvisionXML body doc) = true := by
  unfold processProvisionXML
  exact flattenFold_allowed _ _ (resolveRefs_allowedN _ (filterAttrs_allowedN _))
